import Mathlib

/-!
Verification of the Zentinel agent subsystem against its specification.

The definitions below are a shallow embedding of the Rust sources of the
`zentinel-agent-protocol` crate and of the proxy's agent manager / guardrail
processor.  Pure functions are translated directly; stateful dispatch loops
are modelled by explicit folds over the per-agent outcomes they examine.
Machine integers (`u8`, `u16`, `u32`, `usize`) are modelled as `Nat`, with the
one truncating cast (`as u32` in the frame writer) made explicit.  Types that
live in crates outside the provided sources (the error enum, the decision
accumulator, the guardrail configuration records) are modelled from the
specification and say so in their doc comments.
-/

namespace Zentinel

/-- Agent protocol version, from `protocol.rs` (`PROTOCOL_VERSION: u32 = 2`). -/
def PROTOCOL_VERSION : Nat := 2

/-- Maximum message size, from `protocol.rs` (`MAX_MESSAGE_SIZE: usize = 10 * 1024 * 1024`). -/
def MAX_MESSAGE_SIZE : Nat := 10 * 1024 * 1024

/-- Event kinds, from `protocol.rs` `enum EventType`. -/
inductive EventType
  | configure
  | requestHeaders
  | requestBodyChunk
  | responseHeaders
  | responseBodyChunk
  | requestComplete
  | webSocketFrame
  | guardrailInspect
  deriving DecidableEq, Repr

/-- Agent decision, from `protocol.rs` `enum Decision`.  Header maps are
modelled as association lists. -/
inductive Decision
  | allow
  | block (status : Nat) (body : Option String) (headers : Option (List (String × String)))
  | redirect (url : String) (status : Nat)
  | challenge (challengeType : String) (params : List (String × String))
  deriving DecidableEq, Repr

/-- Header modification operation, from `protocol.rs` `enum HeaderOp`. -/
inductive HeaderOp
  | set (name : String) (value : String)
  | add (name : String) (value : String)
  | remove (name : String)
  deriving DecidableEq, Repr

/-- Body mutation, from `protocol.rs` `struct BodyMutation`. -/
structure BodyMutation where
  data : Option String
  chunkIndex : Nat
  deriving DecidableEq, Repr

/-- WebSocket frame decision, from `protocol.rs` `enum WebSocketDecision`. -/
inductive WebSocketDecision
  | allow
  | drop
  | close (code : Nat) (reason : String)
  deriving DecidableEq, Repr

/-- Minimal model of `serde_json::Value` (external library type): only the
constructors this code base ever builds are needed, with integer numerics. -/
inductive JsonValue
  | null
  | bool (b : Bool)
  | num (n : Int)
  | str (s : String)
  | arr (xs : List JsonValue)
  | obj (kvs : List (String × JsonValue))
  deriving Repr

/-- Audit metadata, from `protocol.rs` `struct AuditMetadata` (`confidence`
is an `Option<f32>` in the source; it is carried opaquely here). -/
structure AuditMetadata where
  tags : List String
  ruleIds : List String
  confidence : Option Float
  reasonCodes : List String
  custom : List (String × JsonValue)

/-- Empty audit metadata (`AuditMetadata::default()`). -/
def AuditMetadata.defaultVal : AuditMetadata :=
  ⟨[], [], none, [], []⟩

/-- Agent response, from `protocol.rs` `struct AgentResponse`. -/
structure AgentResponse where
  version : Nat
  decision : Decision
  requestHeaders : List HeaderOp
  responseHeaders : List HeaderOp
  routingMetadata : List (String × String)
  audit : AuditMetadata
  needsMore : Bool
  requestBodyMutation : Option BodyMutation
  responseBodyMutation : Option BodyMutation
  websocketDecision : Option WebSocketDecision

/-- WebSocket opcode, from `protocol.rs` `enum WebSocketOpcode`. -/
inductive WebSocketOpcode
  | continuation
  | text
  | binary
  | close
  | ping
  | pong
  deriving DecidableEq, Repr

/-- Byte value of an opcode, from `WebSocketOpcode::as_u8`. -/
def WebSocketOpcode.asU8 : WebSocketOpcode → Nat
  | .continuation => 0x0
  | .text => 0x1
  | .binary => 0x2
  | .close => 0x8
  | .ping => 0x9
  | .pong => 0xA

/-- Parse an opcode from a byte value, from `WebSocketOpcode::from_u8`. -/
def WebSocketOpcode.fromU8 : Nat → Option WebSocketOpcode
  | 0x0 => some .continuation
  | 0x1 => some .text
  | 0x2 => some .binary
  | 0x8 => some .close
  | 0x9 => some .ping
  | 0xA => some .pong
  | _ => none

/-- Protocol error kinds.  Modelled from the spec: the crate's `errors.rs` is
not among the provided sources; the spec's error taxonomy (§7) lists
`ConnectionFailed`, `ConnectionClosed`, `Serialization`, `InvalidMessage`,
`VersionMismatch{expected, actual}`, `MessageTooLarge{size, max}`,
`WrongConnectionType`, `Timeout`; an I/O read error is mapped into the enum by
the `?` conversions in `client.rs`. -/
inductive AgentProtocolError
  | connectionFailed (detail : String)
  | connectionClosed
  | serialization (detail : String)
  | invalidMessage (detail : String)
  | versionMismatch (expected : Nat) (actual : Nat)
  | messageTooLarge (size : Nat) (max : Nat)
  | wrongConnectionType (detail : String)
  | timeoutErr
  | ioError (detail : String)
  deriving DecidableEq, Repr

/- ───────────────────────────── UDS framing (client.rs) ───────────────────── -/

/-- Big-endian bytes of `n as u32`, from `(data.len() as u32).to_be_bytes()`
in `client.rs::send_raw_unix` (the cast truncates modulo `2^32`). -/
def toBE32 (n : Nat) : List Nat :=
  [n / 2 ^ 24 % 256, n / 2 ^ 16 % 256, n / 2 ^ 8 % 256, n % 256]

/-- Bytes written to the socket by `client.rs::send_raw_unix`: the 4-byte
big-endian length prefix followed by the message data. -/
def sendRawUnix (data : List Nat) : List Nat :=
  toBE32 data.length ++ data

/-- Size gate of `client.rs::send_event_unix_socket` (lines 383–389): the
serialized request is rejected when it exceeds `MAX_MESSAGE_SIZE`. -/
def sendSizeCheck (requestBytes : List Nat) : Except AgentProtocolError Unit :=
  if requestBytes.length > MAX_MESSAGE_SIZE then
    .error (.messageTooLarge requestBytes.length MAX_MESSAGE_SIZE)
  else
    .ok ()

/-- Reader of `client.rs::receive_raw_unix`: reads a 4-byte big-endian length,
rejects lengths above `MAX_MESSAGE_SIZE`, then reads exactly that many bytes.
The incoming socket stream is modelled as the list of available bytes. -/
def receiveRawUnix (stream : List Nat) : Except AgentProtocolError (List Nat) :=
  match stream with
  | b0 :: b1 :: b2 :: b3 :: rest =>
    let messageLen := ((b0 * 256 + b1) * 256 + b2) * 256 + b3
    if messageLen > MAX_MESSAGE_SIZE then
      .error (.messageTooLarge messageLen MAX_MESSAGE_SIZE)
    else if rest.length < messageLen then
      .error (.ioError "unexpected EOF")
    else
      .ok (rest.take messageLen)
  | _ => .error (.ioError "unexpected EOF")

/-- Version check applied by `client.rs::send_event_unix_socket` (lines
400–411) to a parsed response: a version field different from
`PROTOCOL_VERSION` is rejected with `VersionMismatch`. -/
def verifyUdsResponseVersion (r : AgentResponse) : Except AgentProtocolError AgentResponse :=
  if r.version ≠ PROTOCOL_VERSION then
    .error (.versionMismatch PROTOCOL_VERSION r.version)
  else
    .ok r

/- ─────────────────────── UDS encoding negotiation (v2) ───────────────────── -/

/-- Wire encodings of the v2 UDS transport.  The enum itself lives in
`v2/uds.rs` (not among the provided sources); its two variants are fixed by
the match in `uds_server.rs::negotiate_encoding` and by the spec (§4.1:
`[MessagePack, JSON]`). -/
inductive UdsEncoding
  | json
  | messagePack
  deriving DecidableEq, Repr

/-- Encoding negotiation, from `uds_server.rs::negotiate_encoding` (lines
241–252): scan the proxy's ordered preferences, return the first supported
one, fall back to JSON.  `binaryUds` models the `binary-uds` cargo feature
guarding MessagePack support. -/
def negotiateEncoding (binaryUds : Bool) : List UdsEncoding → UdsEncoding
  | [] => .json
  | .json :: _ => .json
  | .messagePack :: rest =>
    if binaryUds then .messagePack else negotiateEncoding binaryUds rest

/-- Spec-side description of which encodings the server supports: JSON always,
MessagePack exactly when binary support is compiled in. -/
def serverSupports (binaryUds : Bool) : UdsEncoding → Bool
  | .json => true
  | .messagePack => binaryUds

/- ───────────────────────── Copy-on-write headers ─────────────────────────── -/

/-- Header map, modelling `HashMap<String, Vec<String>>` as an association
list with unordered-lookup semantics. -/
abbrev HeaderMap : Type := List (String × List String)

/-- Lookup, modelling `HashMap::get`. -/
def HeaderMap.get : HeaderMap → String → Option (List String)
  | [], _ => none
  | p :: rest, k => if p.1 = k then some p.2 else HeaderMap.get rest k

/-- Insert-or-replace, modelling `HashMap::insert`. -/
def HeaderMap.insert : HeaderMap → String → List String → HeaderMap
  | [], k, v => [(k, v)]
  | p :: rest, k, v => if p.1 = k then (k, v) :: rest else p :: HeaderMap.insert rest k v

/-- Key removal, modelling `HashMap::remove` (the removed value is returned
separately via `HeaderMap.get`). -/
def HeaderMap.erase : HeaderMap → String → HeaderMap
  | [], _ => []
  | p :: rest, k => if p.1 = k then HeaderMap.erase rest k else p :: HeaderMap.erase rest k

/-- State of a `Cow<'a, HashMap<..>>`: still borrowing the source map, or
owning a private copy. -/
inductive CowState
  | borrowed
  | owned (m : HeaderMap)

/-- Copy-on-write headers, from `headers.rs` `struct HeadersCow`.  The borrowed
source map is carried explicitly so that theorems can speak about it. -/
structure HeadersCow where
  src : HeaderMap
  state : CowState

/-- Constructor `HeadersCow::borrowed`. -/
def HeadersCow.borrowed (headers : HeaderMap) : HeadersCow :=
  ⟨headers, .borrowed⟩

/-- Constructor `HeadersCow::owned`. -/
def HeadersCow.ownedOf (headers : HeaderMap) : HeadersCow :=
  ⟨headers, .owned headers⟩

/-- The map the cow currently reads from (`Cow::deref`). -/
def HeadersCow.view (c : HeadersCow) : HeaderMap :=
  match c.state with
  | .borrowed => c.src
  | .owned m => m

/-- Read accessor `HeadersCow::get`. -/
def HeadersCow.get (c : HeadersCow) (name : String) : Option (List String) :=
  c.view.get name

/-- Accessor `HeadersCow::is_owned`. -/
def HeadersCow.isOwned (c : HeadersCow) : Bool :=
  match c.state with
  | .owned _ => true
  | .borrowed => false

/-- Mutator `HeadersCow::set`: `to_mut` clones the borrowed map if needed, then
`insert(name, vec![value])`. -/
def HeadersCow.set (c : HeadersCow) (name value : String) : HeadersCow :=
  { c with state := .owned (c.view.insert name [value]) }

/-- Mutator `HeadersCow::add`: `to_mut().entry(name).or_default().push(value)`. -/
def HeadersCow.add (c : HeadersCow) (name value : String) : HeadersCow :=
  { c with state := .owned (c.view.insert name ((c.view.get name).getD [] ++ [value])) }

/-- Mutator `HeadersCow::remove`: `to_mut().remove(name)`, returning the
removed values. -/
def HeadersCow.removeKey (c : HeadersCow) (name : String) :
    HeadersCow × Option (List String) :=
  ({ c with state := .owned (c.view.erase name) }, c.view.get name)

/- ─────────────────────────── Base64 (STANDARD) ───────────────────────────── -/

/-- Standard base64 alphabet used by `base64::engine::general_purpose::STANDARD`
(external crate relied on by `protocol.rs` and `manager.rs`). -/
def b64Alphabet : List Char :=
  ("ABCDEFGHIJKLMNOPQRSTUVWXYZabcdefghijklmnopqrstuvwxyz0123456789+/").toList

/-- Character for a six-bit group. -/
def b64Char (n : Nat) : Char :=
  b64Alphabet.getD n 'A'

/-- Six-bit value of an alphabet character, `none` for foreign characters. -/
def b64Index (c : Char) : Option Nat :=
  List.findIdx? (fun a => a = c) b64Alphabet

/-- Base64 encoding of a byte sequence (STANDARD engine, with padding). -/
def b64EncodeChars : List Nat → List Char
  | [] => []
  | [a] => [b64Char (a / 4), b64Char (a % 4 * 16), '=', '=']
  | [a, b] => [b64Char (a / 4), b64Char (a % 4 * 16 + b / 16), b64Char (b % 16 * 4), '=']
  | a :: b :: c :: rest =>
    b64Char (a / 4) :: b64Char (a % 4 * 16 + b / 16) :: b64Char (b % 16 * 4 + c / 64) ::
      b64Char (c % 64) :: b64EncodeChars rest

/-- Base64 decoding (STANDARD engine: strict alphabet, mandatory canonical
padding, trailing bits must be zero, padding only in the final quantum). -/
def b64DecodeChars : List Char → Option (List Nat)
  | [] => some []
  | a :: b :: c :: d :: rest => do
    let x ← b64Index a
    let y ← b64Index b
    if c = '=' then
      if d = '=' ∧ rest = [] ∧ y % 16 = 0 then some [x * 4 + y / 16] else none
    else do
      let z ← b64Index c
      if d = '=' then
        if rest = [] ∧ z % 4 = 0 then some [x * 4 + y / 16, y % 16 * 16 + z / 4] else none
      else do
        let w ← b64Index d
        let tail ← b64DecodeChars rest
        some ((x * 4 + y / 16) :: (y % 16 * 16 + z / 4) :: (z % 4 * 64 + w) :: tail)
  | _ => none

/-- String-level base64 encoding (`STANDARD.encode`). -/
def b64Encode (bytes : List Nat) : String :=
  String.mk (b64EncodeChars bytes)

/-- String-level base64 decoding (`STANDARD.decode`). -/
def b64Decode (s : String) : Option (List Nat) :=
  b64DecodeChars s.toList

/-- UTF-8 bytes of one character, modelling Rust's `str::as_bytes` (external
standard library), used by the decode-failure fallback in `protocol.rs`. -/
def charUtf8 (c : Char) : List Nat :=
  let n := c.toNat
  if n < 0x80 then [n]
  else if n < 0x800 then [0xC0 + n / 64, 0x80 + n % 64]
  else if n < 0x10000 then [0xE0 + n / 4096, 0x80 + n / 64 % 64, 0x80 + n % 64]
  else [0xF0 + n / 262144, 0x80 + n / 4096 % 64, 0x80 + n / 64 % 64, 0x80 + n % 64]

/-- UTF-8 bytes of a string (`str::as_bytes`). -/
def strUtf8 (s : String) : List Nat :=
  (s.toList.map charUtf8).flatten

/- ────────────────────────── Body chunk events ────────────────────────────── -/

/-- Request body chunk event, from `protocol.rs` `struct RequestBodyChunkEvent`
(`data` is the base64 string used on the JSON transport). -/
structure RequestBodyChunkEvent where
  correlationId : String
  data : String
  isLast : Bool
  totalSize : Option Nat
  chunkIndex : Nat
  bytesReceived : Nat
  deriving DecidableEq, Repr

/-- Response body chunk event, from `protocol.rs` `struct ResponseBodyChunkEvent`. -/
structure ResponseBodyChunkEvent where
  correlationId : String
  data : String
  isLast : Bool
  totalSize : Option Nat
  chunkIndex : Nat
  bytesSent : Nat
  deriving DecidableEq, Repr

/-- Binary request body chunk event, from `protocol.rs`
`struct BinaryRequestBodyChunkEvent` (`data: Bytes`, modelled as byte list). -/
structure BinaryRequestBodyChunkEvent where
  correlationId : String
  data : List Nat
  isLast : Bool
  totalSize : Option Nat
  chunkIndex : Nat
  bytesReceived : Nat
  deriving DecidableEq, Repr

/-- Binary response body chunk event, from `protocol.rs`
`struct BinaryResponseBodyChunkEvent`. -/
structure BinaryResponseBodyChunkEvent where
  correlationId : String
  data : List Nat
  isLast : Bool
  totalSize : Option Nat
  chunkIndex : Nat
  bytesSent : Nat
  deriving DecidableEq, Repr

/-- Conversion `From<BinaryRequestBodyChunkEvent> for RequestBodyChunkEvent`
(`protocol.rs` lines 365–378): base64-encode the bytes, copy every counter. -/
def binReqToJson (e : BinaryRequestBodyChunkEvent) : RequestBodyChunkEvent :=
  { correlationId := e.correlationId
    data := b64Encode e.data
    isLast := e.isLast
    totalSize := e.totalSize
    chunkIndex := e.chunkIndex
    bytesReceived := e.bytesReceived }

/-- Conversion `From<&RequestBodyChunkEvent> for BinaryRequestBodyChunkEvent`
(`protocol.rs` lines 380–399): base64-decode, falling back to the string's raw
UTF-8 bytes when decoding fails. -/
def jsonReqToBin (e : RequestBodyChunkEvent) : BinaryRequestBodyChunkEvent :=
  { correlationId := e.correlationId
    data := (b64Decode e.data).getD (strUtf8 e.data)
    isLast := e.isLast
    totalSize := e.totalSize
    chunkIndex := e.chunkIndex
    bytesReceived := e.bytesReceived }

/-- Conversion `From<BinaryResponseBodyChunkEvent> for ResponseBodyChunkEvent`
(`protocol.rs` lines 401–414). -/
def binRespToJson (e : BinaryResponseBodyChunkEvent) : ResponseBodyChunkEvent :=
  { correlationId := e.correlationId
    data := b64Encode e.data
    isLast := e.isLast
    totalSize := e.totalSize
    chunkIndex := e.chunkIndex
    bytesSent := e.bytesSent }

/-- Conversion `From<&ResponseBodyChunkEvent> for BinaryResponseBodyChunkEvent`
(`protocol.rs` lines 416–435). -/
def jsonRespToBin (e : ResponseBodyChunkEvent) : BinaryResponseBodyChunkEvent :=
  { correlationId := e.correlationId
    data := (b64Decode e.data).getD (strUtf8 e.data)
    isLast := e.isLast
    totalSize := e.totalSize
    chunkIndex := e.chunkIndex
    bytesSent := e.bytesSent }

/- ─────────────────────────── Guardrail pipeline ──────────────────────────── -/

/-- Severity level, from `protocol.rs` `enum DetectionSeverity`. -/
inductive DetectionSeverity
  | low
  | medium
  | high
  | critical
  deriving DecidableEq, Repr

/-- Text span, from `protocol.rs` `struct TextSpan` (fields `start`/`end`,
renamed here because `end` is a Lean keyword). -/
structure TextSpan where
  startPos : Nat
  endPos : Nat
  deriving DecidableEq, Repr

/-- Single detection, from `protocol.rs` `struct GuardrailDetection`
(`confidence: Option<f64>` carried opaquely). -/
structure GuardrailDetection where
  category : String
  description : String
  severity : DetectionSeverity
  confidence : Option Float
  span : Option TextSpan

/-- Agent reply to an inspection, from `protocol.rs` `struct GuardrailResponse`. -/
structure GuardrailResponse where
  detected : Bool
  confidence : Float
  detections : List GuardrailDetection
  redactedContent : Option String

/-- Guardrail action.  Modelled from the spec: the `zentinel-config` crate is
not among the provided sources; §4.7 lists the actions `Block`, `Log`, `Warn`. -/
inductive GuardrailAction
  | block
  | log
  | warn
  deriving DecidableEq, Repr

/-- Guardrail failure mode.  Modelled from the spec (§4.7): `Open` / `Closed`. -/
inductive GuardrailFailureMode
  | open
  | closed
  deriving DecidableEq, Repr

/-- Prompt-injection configuration.  Modelled from the spec (§4.7): agent-id,
action, block status, block message, timeout, failure-mode, plus the `enabled`
flag read by `guardrails.rs`. -/
structure PromptInjectionConfig where
  enabled : Bool
  agent : String
  action : GuardrailAction
  blockStatus : Nat
  blockMessage : Option String
  timeoutMs : Nat
  failureMode : GuardrailFailureMode

/-- PII-detection configuration.  Modelled from the spec (§4.7): agent-id,
optional category list, timeout, failure-mode, plus the `enabled` flag read by
`guardrails.rs`. -/
structure PiiDetectionConfig where
  enabled : Bool
  agent : String
  categories : List String
  timeoutMs : Nat
  failureMode : GuardrailFailureMode

/-- Result of a prompt-injection check, from `guardrails.rs`
`enum PromptInjectionResult`. -/
inductive PromptInjectionResult
  | clean
  | blocked (status : Nat) (message : String) (detections : List GuardrailDetection)
  | detected (detections : List GuardrailDetection)
  | warning (detections : List GuardrailDetection)
  | error (message : String)

/-- Result of a PII check, from `guardrails.rs` `enum PiiCheckResult`. -/
inductive PiiCheckResult
  | clean
  | detected (detections : List GuardrailDetection) (redactedContent : Option String)
  | error (message : String)

/-- Outcome of the timeout-wrapped guardrail agent call, covering the three
arms matched in `guardrails.rs` (`Ok(Ok(response))` / `Ok(Err(e))` / `Err(_)`). -/
inductive GuardrailCallOutcome
  | response (r : GuardrailResponse)
  | failed (e : String)
  | timedOut

/-- Prompt-injection check, from `guardrails.rs::check_prompt_injection`
(lines 77–185), as a function of the configuration and the agent-call outcome. -/
def checkPromptInjection (config : PromptInjectionConfig) (outcome : GuardrailCallOutcome) :
    PromptInjectionResult :=
  if !config.enabled then .clean
  else
    match outcome with
    | .response r =>
      if r.detected then
        match config.action with
        | .block =>
          .blocked config.blockStatus
            (config.blockMessage.getD "Request blocked: potential prompt injection detected")
            r.detections
        | .log => .detected r.detections
        | .warn => .warning r.detections
      else .clean
    | .failed _ =>
      match config.failureMode with
      | .open => .clean
      | .closed => .blocked 503 "Guardrail check unavailable" []
    | .timedOut =>
      match config.failureMode with
      | .open => .clean
      | .closed => .blocked 504 "Guardrail check timed out" []

/-- PII check, from `guardrails.rs::check_pii` (lines 194–277), as a function
of the configuration and the agent-call outcome. -/
def checkPii (config : PiiDetectionConfig) (outcome : GuardrailCallOutcome) : PiiCheckResult :=
  if !config.enabled then .clean
  else
    match outcome with
    | .response r =>
      if r.detected then .detected r.detections r.redactedContent else .clean
    | .failed e => .error e
    | .timedOut => .error "Agent timeout"

/- ─────────────────────── Agent manager, parallel fan-out ─────────────────── -/

/-- Filter failure mode.  Modelled from the spec: `zentinel_config::FailureMode`
is not among the provided sources; the glossary defines `Open` (tolerate agent
failure) and `Closed` (block the request on agent failure). -/
inductive FailureMode
  | open
  | closed
  deriving DecidableEq, Repr

/-- Match on the first component of a prefix of the second list: helper for the
substring test below. -/
def leadMatch : List Char → List Char → Bool
  | [], _ => true
  | _ :: _, [] => false
  | p :: ps, c :: cs => p == c && leadMatch ps cs

/-- Substring occurrence on character lists. -/
def hasSub : List Char → List Char → Bool
  | [], pat => leadMatch pat []
  | l@(_ :: rest), pat => leadMatch pat l || hasSub rest pat

/-- Substring test modelling Rust's `str::contains(&str)` (external standard
library function used at `manager.rs:1037`). -/
def strContainsSub (s pat : String) : Bool :=
  hasSub s.toList pat.toList

/-- Decision accumulator of the manager.  Modelled from the spec:
`agents/decision.rs` is not among the provided sources.  Per §3 a merged
decision carries the decision itself, the request- and response-side header
operations, and the routing metadata; audit propagation is omitted here
because no claim below depends on it. -/
structure AgentDecision where
  decision : Decision
  requestHeaders : List HeaderOp
  responseHeaders : List HeaderOp
  routingMetadata : List (String × String)
  deriving DecidableEq, Repr

/-- Modelled from the spec: `AgentDecision::default_allow()`. -/
def AgentDecision.defaultAllow : AgentDecision :=
  ⟨.allow, [], [], []⟩

/-- Modelled from the spec: `AgentDecision::block(status, body)` synthesizes a
block decision with the given status and body. -/
def AgentDecision.block (status : Nat) (body : String) : AgentDecision :=
  ⟨.block status (some body) none, [], [], []⟩

/-- Modelled from the spec: `AgentDecision::is_allow()` holds exactly for the
`Allow` decision. -/
def AgentDecision.isAllow (d : AgentDecision) : Bool :=
  match d.decision with
  | .allow => true
  | _ => false

/-- Modelled from the spec: conversion of an `AgentResponse` into an
`AgentDecision` (`response.into()` at `manager.rs:1010`) keeps the decision,
the header operations and the routing metadata. -/
def AgentDecision.ofResponse (r : AgentResponse) : AgentDecision :=
  ⟨r.decision, r.requestHeaders, r.responseHeaders, r.routingMetadata⟩

/-- Decision strength (glossary: `Allow < Redirect/Challenge < Block`). -/
def decisionStrength : Decision → Nat
  | .allow => 0
  | .redirect _ _ => 1
  | .challenge _ _ => 1
  | .block _ _ _ => 2

/-- Modelled from the spec: `AgentDecision::merge` keeps the strongest
decision and concatenates header operations (per-agent order preserved) and
routing metadata. -/
def AgentDecision.merge (a b : AgentDecision) : AgentDecision :=
  { decision :=
      if decisionStrength b.decision > decisionStrength a.decision then b.decision
      else a.decision
    requestHeaders := a.requestHeaders ++ b.requestHeaders
    responseHeaders := a.responseHeaders ++ b.responseHeaders
    routingMetadata := a.routingMetadata ++ b.routingMetadata }

/-- Result of the timeout-wrapped `agent.call_event` (the three arms matched
at `manager.rs:952–995`). -/
inductive CallResult
  | success (r : AgentResponse)
  | failed (errorDisplay : String)
  | timedOut

/-- One entry of the parallel fan-out: the agent's id, the filter's failure
mode, whether the semaphore permit was acquired, whether the circuit breaker
is closed, and the call result reached when both gates pass. -/
structure ParallelAgentCall where
  agentId : String
  filterFailureMode : FailureMode
  permitOk : Bool
  breakerClosed : Bool
  call : CallResult

/-- Per-agent future body of `process_event_parallel` (`manager.rs:911–996`):
permit failure, breaker-open, call error and timeout become `Err((agent_id,
failure_mode, reason))` with the reason strings of the source; success becomes
`Ok((agent_id, response))`. -/
def runParallelCall (c : ParallelAgentCall) :
    Except (String × FailureMode × String) (String × AgentResponse) :=
  if !c.permitOk then
    .error (c.agentId, c.filterFailureMode, "Failed to acquire permit")
  else if !c.breakerClosed then
    .error (c.agentId, c.filterFailureMode, "Circuit breaker open")
  else
    match c.call with
    | .success r => .ok (c.agentId, r)
    | .failed e => .error (c.agentId, c.filterFailureMode, "Agent error: " ++ e)
    | .timedOut => .error (c.agentId, c.filterFailureMode, "Timeout")

/-- Block synthesized for a fail-closed failure (`manager.rs:1037–1043`): 504
"Gateway timeout" when the reason text contains `"Timeout"`, else 503
"Service unavailable". -/
def synthFailBlock (reason : String) : AgentDecision :=
  if strContainsSub reason "Timeout" then AgentDecision.block 504 "Gateway timeout"
  else AgentDecision.block 503 "Service unavailable"

/-- Result-merging loop of `process_event_parallel` (`manager.rs:1003–1069`):
the first non-Allow decision returns immediately; fail-closed errors remember
the first synthesized block; fail-open errors are skipped; at the end the
remembered block, if any, wins over the merged Allow decisions. -/
def foldResults (combined : AgentDecision) (blockingError : Option AgentDecision) :
    List (Except (String × FailureMode × String) (String × AgentResponse)) → AgentDecision
  | [] => blockingError.getD combined
  | .ok (_, response) :: rest =>
    let decision := AgentDecision.ofResponse response
    if !decision.isAllow then decision
    else foldResults (combined.merge decision) blockingError rest
  | .error (_, failureMode, reason) :: rest =>
    if failureMode == .closed && blockingError.isNone then
      foldResults combined (some (synthFailBlock reason)) rest
    else
      foldResults combined blockingError rest

/-- Parallel fan-out `process_event_parallel` (`manager.rs:850–1070`) as a
function of the per-agent call outcomes: empty agent list returns the default
Allow, otherwise all outcomes are folded as in the source. -/
def processEventParallel (calls : List ParallelAgentCall) : AgentDecision :=
  if calls.isEmpty then AgentDecision.defaultAllow
  else foldResults AgentDecision.defaultAllow none (calls.map runParallelCall)

/-- Reason of an errored outcome whose filter failure mode is `Closed`. -/
def failClosedReason :
    Except (String × FailureMode × String) (String × AgentResponse) → Option String
  | .error (_, .closed, reason) => some reason
  | _ => none

/-- Shorthand for the per-agent outcome type of the parallel fan-out. -/
abbrev Outcome := Except (String × FailureMode × String) (String × AgentResponse)

/-- Every successful outcome in the list carries an Allow decision. -/
def oksAllow (xs : List Outcome) : Prop :=
  ∀ o ∈ xs, ∀ id r, o = .ok (id, r) → (AgentDecision.ofResponse r).isAllow = true

/- ─────────────────────── Agent manager, sequential dispatch ──────────────── -/

/-- Errors returned by the sequential dispatch loops.  `permitFailure` models
the `ZentinelError::Internal` built on a failed semaphore acquire
(`manager.rs:491-502, 688-699`); `agentCallError` models the agent-call error
`e` that `process_event` propagates with `return Err(e)` (`manager.rs:586`),
carried by its display text since the `ZentinelError` enum (not in the
sources) is modelled from the spec's error taxonomy (§7). -/
inductive SeqError
  | permitFailure
  | agentCallError (errorDisplay : String)
  deriving DecidableEq, Repr

/-- One entry of a sequential dispatch: the agent's id, the failure mode
consulted for it (the agent's default in `process_event`, the filter's mode in
`process_event_with_failure_modes`), whether the semaphore permit was
acquired, whether the circuit breaker is closed, and the call result reached
when both gates pass. -/
structure SequentialAgentCall where
  agentId : String
  failureMode : FailureMode
  permitOk : Bool
  breakerClosed : Bool
  call : CallResult

/-- Per-agent loop of `process_event` (`manager.rs:470-609`): permit failure
returns an internal error; an open breaker under the agent's fail-closed mode
returns a 503 "Service unavailable" block, under fail-open skips the agent; a
successful response is merged and a non-Allow merged decision breaks the loop
(returning the merged decision); a generic call error under fail-closed
propagates the error itself (`return Err(e)`, line 586); a timeout under
fail-closed returns a 504 "Gateway timeout" block; fail-open failures
continue with the remaining agents. -/
def processEventLoop (combined : AgentDecision) :
    List SequentialAgentCall → Except SeqError AgentDecision
  | [] => .ok combined
  | c :: rest =>
    if !c.permitOk then .error .permitFailure
    else if !c.breakerClosed then
      if c.failureMode = .closed then .ok (AgentDecision.block 503 "Service unavailable")
      else processEventLoop combined rest
    else
      match c.call with
      | .success r =>
        let merged := combined.merge (AgentDecision.ofResponse r)
        if !merged.isAllow then .ok merged
        else processEventLoop merged rest
      | .failed e =>
        if c.failureMode = .closed then .error (.agentCallError e)
        else processEventLoop combined rest
      | .timedOut =>
        if c.failureMode = .closed then .ok (AgentDecision.block 504 "Gateway timeout")
        else processEventLoop combined rest

/-- Sequential dispatch `process_event` (`manager.rs:428-619`) as a function
of the per-agent call outcomes: an empty relevant-agent list returns the
default Allow, otherwise the loop above runs from the default Allow. -/
def processEvent (calls : List SequentialAgentCall) : Except SeqError AgentDecision :=
  if calls.isEmpty then .ok AgentDecision.defaultAllow
  else processEventLoop AgentDecision.defaultAllow calls

/-- Per-agent loop of `process_event_with_failure_modes`
(`manager.rs:667-824`): identical to `processEventLoop` except that a generic
call error under the filter's fail-closed mode returns a synthesized 503
"Agent unavailable" block (line 788) instead of propagating the error. -/
def processEventWithFailureModesLoop (combined : AgentDecision) :
    List SequentialAgentCall → Except SeqError AgentDecision
  | [] => .ok combined
  | c :: rest =>
    if !c.permitOk then .error .permitFailure
    else if !c.breakerClosed then
      if c.failureMode = .closed then .ok (AgentDecision.block 503 "Service unavailable")
      else processEventWithFailureModesLoop combined rest
    else
      match c.call with
      | .success r =>
        let merged := combined.merge (AgentDecision.ofResponse r)
        if !merged.isAllow then .ok merged
        else processEventWithFailureModesLoop merged rest
      | .failed _ =>
        if c.failureMode = .closed then .ok (AgentDecision.block 503 "Agent unavailable")
        else processEventWithFailureModesLoop combined rest
      | .timedOut =>
        if c.failureMode = .closed then .ok (AgentDecision.block 504 "Gateway timeout")
        else processEventWithFailureModesLoop combined rest

/-- Sequential dispatch `process_event_with_failure_modes`
(`manager.rs:625-834`) as a function of the per-agent call outcomes. -/
def processEventWithFailureModes (calls : List SequentialAgentCall) :
    Except SeqError AgentDecision :=
  if calls.isEmpty then .ok AgentDecision.defaultAllow
  else processEventWithFailureModesLoop AgentDecision.defaultAllow calls

/-- A sequential entry the loops pass over without returning: its permit is
acquired, any failure it suffers is fail-open, and a successful call carries
an Allow decision. -/
def seqContinues (p : SequentialAgentCall) : Prop :=
  p.permitOk = true ∧
  (p.breakerClosed = false → p.failureMode = .open) ∧
  (∀ e, p.call = CallResult.failed e → p.failureMode = .open) ∧
  (p.call = CallResult.timedOut → p.failureMode = .open) ∧
  (∀ r, p.call = CallResult.success r → (AgentDecision.ofResponse r).isAllow = true)

/-- A fail-open failing sequential entry: permit acquired, failure mode Open,
and the agent fails by open breaker, call error, or timeout. -/
def seqSkipped (c : SequentialAgentCall) : Prop :=
  c.permitOk = true ∧ c.failureMode = .open ∧
  (c.breakerClosed = false ∨ (∃ e, c.call = CallResult.failed e) ∨
    c.call = CallResult.timedOut)

/- ─────────────────────────── gRPC response path ──────────────────────────── -/

/-- Block decision message, from the generated protobuf type used in
`client.rs::convert_grpc_response` (fields per the spec's gRPC service, §6). -/
structure GrpcBlockDecision where
  status : Nat
  body : Option String
  headers : List (String × String)

/-- Redirect decision message (spec §6). -/
structure GrpcRedirectDecision where
  url : String
  status : Nat

/-- Challenge decision message (spec §6). -/
structure GrpcChallengeDecision where
  challengeType : String
  params : List (String × String)

/-- The protobuf `oneof decision` (spec §6). -/
inductive GrpcDecision
  | allow
  | block (b : GrpcBlockDecision)
  | redirect (r : GrpcRedirectDecision)
  | challenge (c : GrpcChallengeDecision)

/-- The protobuf `oneof operation` inside a header op (spec §6 / `client.rs`
`convert_header_op_from_grpc`). -/
inductive GrpcHeaderOperation
  | set (name : String) (value : String)
  | add (name : String) (value : String)
  | removeOp (name : String)

/-- Protobuf header op: the `oneof` is optional. -/
structure GrpcHeaderOp where
  operation : Option GrpcHeaderOperation

/-- Protobuf audit metadata (spec §6; `custom` is a string map). -/
structure GrpcAuditMetadata where
  tags : List String
  ruleIds : List String
  confidence : Option Float
  reasonCodes : List String
  custom : List (String × String)

/-- Protobuf body mutation: raw bytes. -/
structure GrpcBodyMutation where
  data : Option (List Nat)
  chunkIndex : Nat

/-- The protobuf `oneof websocket_decision` (spec §6). -/
inductive GrpcWebSocketDecision
  | wsAllow
  | wsDrop
  | wsClose (code : Nat) (reason : String)

/-- Protobuf agent response, from the generated type consumed by
`client.rs::convert_grpc_response` (shape per spec §6). -/
structure GrpcAgentResponse where
  version : Nat
  decision : Option GrpcDecision
  requestHeaders : List GrpcHeaderOp
  responseHeaders : List GrpcHeaderOp
  routingMetadata : List (String × String)
  audit : Option GrpcAuditMetadata
  needsMore : Bool
  requestBodyMutation : Option GrpcBodyMutation
  responseBodyMutation : Option GrpcBodyMutation
  websocketDecision : Option GrpcWebSocketDecision

/-- Header-op conversion, from `client.rs::convert_header_op_from_grpc`
(lines 679–691). -/
def convertHeaderOpFromGrpc (op : GrpcHeaderOp) : Option HeaderOp :=
  match op.operation with
  | some (.set n v) => some (.set n v)
  | some (.add n v) => some (.add n v)
  | some (.removeOp n) => some (.remove n)
  | none => none

/-- Response conversion, from `client.rs::convert_grpc_response` (lines
586–676).  `utf8Lossy` stands for the external `String::from_utf8_lossy`; the
function always returns `Ok` and copies the version field unchecked. -/
def convertGrpcResponse (utf8Lossy : List Nat → String) (response : GrpcAgentResponse) :
    Except AgentProtocolError AgentResponse :=
  let decision : Decision :=
    match response.decision with
    | some .allow => .allow
    | some (.block b) =>
      .block b.status b.body (if b.headers.isEmpty then none else some b.headers)
    | some (.redirect r) => .redirect r.url r.status
    | some (.challenge c) => .challenge c.challengeType c.params
    | none => .allow
  let audit : Option AuditMetadata :=
    response.audit.map fun a =>
      { tags := a.tags
        ruleIds := a.ruleIds
        confidence := a.confidence
        reasonCodes := a.reasonCodes
        custom := a.custom.map fun kv => (kv.1, JsonValue.str kv.2) }
  .ok
    { version := response.version
      decision := decision
      requestHeaders := response.requestHeaders.filterMap convertHeaderOpFromGrpc
      responseHeaders := response.responseHeaders.filterMap convertHeaderOpFromGrpc
      routingMetadata := response.routingMetadata
      audit := audit.getD AuditMetadata.defaultVal
      needsMore := response.needsMore
      requestBodyMutation :=
        response.requestBodyMutation.map fun m =>
          { data := m.data.map utf8Lossy, chunkIndex := m.chunkIndex }
      responseBodyMutation :=
        response.responseBodyMutation.map fun m =>
          { data := m.data.map utf8Lossy, chunkIndex := m.chunkIndex }
      websocketDecision :=
        response.websocketDecision.map fun w =>
          match w with
          | .wsAllow => WebSocketDecision.allow
          | .wsDrop => WebSocketDecision.drop
          | .wsClose code reason => WebSocketDecision.close code reason }

/- ═══════════════════════════════ Theorems ═══════════════════════════════ -/

/-- Lookup after insert at the inserted key. -/
theorem HeaderMap.get_insert_self (m : HeaderMap) (k : String) (v : List String) :
    (m.insert k v).get k = some v := by
  induction m with
  | nil => simp [HeaderMap.insert, HeaderMap.get]
  | cons p rest ih =>
    by_cases h : p.1 = k
    · simp [HeaderMap.insert, HeaderMap.get, h]
    · simp [HeaderMap.insert, HeaderMap.get, h, ih]

/-- Lookup after erase at the erased key. -/
theorem HeaderMap.get_erase_self (m : HeaderMap) (k : String) :
    (m.erase k).get k = none := by
  induction m with
  | nil => simp [HeaderMap.erase, HeaderMap.get]
  | cons p rest ih =>
    by_cases h : p.1 = k
    · simp [HeaderMap.erase, h, ih]
    · simp [HeaderMap.erase, HeaderMap.get, h, ih]

/-- C10.  A `HeadersCow` built by borrowing a header map becomes owned on any
of the mutations `set`, `add`, `remove`; the mutated cow's own reads reflect
the mutation, and the borrowed source map is left unchanged. -/
theorem headersCow_mutations_leave_source_untouched (src : HeaderMap) (k v : String) :
    (((HeadersCow.borrowed src).set k v).isOwned = true ∧
      ((HeadersCow.borrowed src).set k v).src = src ∧
      ((HeadersCow.borrowed src).set k v).get k = some [v]) ∧
    (((HeadersCow.borrowed src).add k v).isOwned = true ∧
      ((HeadersCow.borrowed src).add k v).src = src ∧
      ((HeadersCow.borrowed src).add k v).get k =
        some ((src.get k).getD [] ++ [v])) ∧
    (((HeadersCow.borrowed src).removeKey k).1.isOwned = true ∧
      ((HeadersCow.borrowed src).removeKey k).1.src = src ∧
      ((HeadersCow.borrowed src).removeKey k).1.get k = none) := by
  refine ⟨⟨rfl, rfl, ?_⟩, ⟨rfl, rfl, ?_⟩, rfl, rfl, ?_⟩
  · simpa [HeadersCow.set, HeadersCow.get, HeadersCow.view, HeadersCow.borrowed] using
      HeaderMap.get_insert_self src k [v]
  · simpa [HeadersCow.add, HeadersCow.get, HeadersCow.view, HeadersCow.borrowed] using
      HeaderMap.get_insert_self src k ((src.get k).getD [] ++ [v])
  · simpa [HeadersCow.removeKey, HeadersCow.get, HeadersCow.view, HeadersCow.borrowed] using
      HeaderMap.get_erase_self src k

set_option maxRecDepth 4096 in
/-- C9.  Every defined WebSocket opcode round-trips through its fixed byte
value (0x0, 0x1, 0x2, 0x8, 0x9, 0xA), and `from_u8` returns `none` on every
other byte value. -/
theorem websocket_opcode_roundtrip :
    (∀ o : WebSocketOpcode, WebSocketOpcode.fromU8 o.asU8 = some o) ∧
    WebSocketOpcode.asU8 .continuation = 0x0 ∧
    WebSocketOpcode.asU8 .text = 0x1 ∧
    WebSocketOpcode.asU8 .binary = 0x2 ∧
    WebSocketOpcode.asU8 .close = 0x8 ∧
    WebSocketOpcode.asU8 .ping = 0x9 ∧
    WebSocketOpcode.asU8 .pong = 0xA ∧
    (∀ v : Fin 256, v.val ≠ 0x0 → v.val ≠ 0x1 → v.val ≠ 0x2 → v.val ≠ 0x8 →
      v.val ≠ 0x9 → v.val ≠ 0xA → WebSocketOpcode.fromU8 v.val = none) :=
  ⟨fun o => by cases o <;> rfl, rfl, rfl, rfl, rfl, rfl, rfl, by decide⟩

/-- Witness for C9: byte 0x3 is no opcode. -/
theorem websocket_opcode_roundtrip_witness : WebSocketOpcode.fromU8 0x3 = none :=
  websocket_opcode_roundtrip.2.2.2.2.2.2.2 ⟨0x3, by decide⟩ (by decide) (by decide)
    (by decide) (by decide) (by decide) (by decide)

/-- C8.  Encoding negotiation returns the first entry of the proxy's ordered
preference list that the server supports (JSON always; MessagePack exactly
when binary support is compiled in), falling back to JSON for an empty list
and always answering JSON when binary support is absent. -/
theorem negotiate_encoding_first_supported :
    (∀ (binaryUds : Bool) (prefs : List UdsEncoding),
      negotiateEncoding binaryUds prefs =
        (prefs.find? (serverSupports binaryUds)).getD .json) ∧
    (∀ prefs : List UdsEncoding, negotiateEncoding false prefs = .json) ∧
    (∀ binaryUds : Bool, negotiateEncoding binaryUds [] = .json) := by
  have main : ∀ (binaryUds : Bool) (prefs : List UdsEncoding),
      negotiateEncoding binaryUds prefs =
        (prefs.find? (serverSupports binaryUds)).getD .json := by
    intro b prefs
    induction prefs with
    | nil => rfl
    | cons e rest ih =>
      cases e with
      | json => simp [negotiateEncoding, List.find?, serverSupports]
      | messagePack =>
        cases b with
        | false => simpa [negotiateEncoding, List.find?, serverSupports] using ih
        | true => simp [negotiateEncoding, List.find?, serverSupports]
  refine ⟨main, ?_, fun _ => rfl⟩
  intro prefs
  rw [main]
  cases hf : prefs.find? (serverSupports false) with
  | none => rfl
  | some e =>
    have := List.find?_some hf
    cases e with
    | json => rfl
    | messagePack => simp [serverSupports] at this

/-- C5 counterexample.  The frame written by `send_raw_unix` for the 3-byte
message `[1, 2, 3]` is 7 bytes long — 4-byte length prefix plus payload — so
no leading message-type byte is present as the claim would require. -/
theorem uds_frame_has_no_type_byte :
    ¬ ∃ t : Nat, t < 256 ∧
      sendRawUnix [1, 2, 3] = t :: (toBE32 ([1, 2, 3] : List Nat).length ++ [1, 2, 3]) := by
  rintro ⟨t, -, h⟩
  have hl := congrArg List.length h
  simp [sendRawUnix, toBE32] at hl

/-- C5 amended.  A frame of the `AgentClient` UDS transport is the 4-byte
big-endian payload length followed by exactly the payload bytes (no separate
message-type byte; the event type travels inside the serialized payload), and
`receive_raw_unix` reads such a frame back to exactly the payload. -/
theorem uds_frame_layout (data : List Nat) (h : data.length ≤ MAX_MESSAGE_SIZE) :
    sendRawUnix data = toBE32 data.length ++ data ∧
    receiveRawUnix (sendRawUnix data) = .ok data := by
  refine ⟨rfl, ?_⟩
  have hmax : data.length ≤ 10485760 := by simpa [MAX_MESSAGE_SIZE] using h
  have hrec : ((data.length / 2 ^ 24 % 256 * 256 + data.length / 2 ^ 16 % 256) * 256 +
      data.length / 2 ^ 8 % 256) * 256 + data.length % 256 = data.length := by
    omega
  simp only [sendRawUnix, toBE32, List.cons_append, List.nil_append, receiveRawUnix, hrec]
  rw [if_neg (by simp [MAX_MESSAGE_SIZE]; omega), if_neg (by omega)]
  simp

/-- Witness for C5's amended theorem at the 1-byte payload `[7]`. -/
theorem uds_frame_layout_witness :
    sendRawUnix [7] = toBE32 1 ++ [7] ∧ receiveRawUnix (sendRawUnix [7]) = .ok [7] :=
  uds_frame_layout [7] (by norm_num [MAX_MESSAGE_SIZE])

/-- C6.  A serialized message of exactly 10 MiB (10,485,760 bytes) passes both
the send-side and the receive-side gate, while anything strictly larger is
rejected with `MessageTooLarge` carrying the actual size and the maximum. -/
theorem message_size_boundary :
    (∀ bytes : List Nat, bytes.length = MAX_MESSAGE_SIZE → sendSizeCheck bytes = .ok ()) ∧
    (∀ bytes : List Nat, MAX_MESSAGE_SIZE < bytes.length →
      sendSizeCheck bytes = .error (.messageTooLarge bytes.length MAX_MESSAGE_SIZE)) ∧
    (∀ payload rest : List Nat, payload.length = MAX_MESSAGE_SIZE →
      receiveRawUnix (toBE32 MAX_MESSAGE_SIZE ++ (payload ++ rest)) = .ok payload) ∧
    (∀ (n : Nat) (rest : List Nat), MAX_MESSAGE_SIZE < n → n < 2 ^ 32 →
      receiveRawUnix (toBE32 n ++ rest) = .error (.messageTooLarge n MAX_MESSAGE_SIZE)) := by
  refine ⟨?_, ?_, ?_, ?_⟩
  · intro bytes hb
    simp [sendSizeCheck, hb]
  · intro bytes hb
    simp [sendSizeCheck, hb]
  · intro payload rest hp
    have hrec : ∀ n : Nat, n < 2 ^ 32 →
        ((n / 2 ^ 24 % 256 * 256 + n / 2 ^ 16 % 256) * 256 + n / 2 ^ 8 % 256) * 256 +
          n % 256 = n := by
      intro n hn
      omega
    simp only [toBE32, List.cons_append, List.nil_append, receiveRawUnix,
      hrec MAX_MESSAGE_SIZE (by norm_num [MAX_MESSAGE_SIZE])]
    rw [if_neg (by omega), if_neg (by simp [List.length_append]; omega), ← hp,
      List.take_left]
  · intro n rest hn hn32
    have hrec : ((n / 2 ^ 24 % 256 * 256 + n / 2 ^ 16 % 256) * 256 + n / 2 ^ 8 % 256) * 256 +
        n % 256 = n := by omega
    simp only [toBE32, List.cons_append, List.nil_append, receiveRawUnix, hrec]
    rw [if_pos hn]

/-- Witness for C6 at the exact boundary sizes. -/
theorem message_size_boundary_witness :
    sendSizeCheck (List.replicate MAX_MESSAGE_SIZE 0) = .ok () ∧
    sendSizeCheck (List.replicate (MAX_MESSAGE_SIZE + 1) 0) =
      .error (.messageTooLarge (MAX_MESSAGE_SIZE + 1) MAX_MESSAGE_SIZE) ∧
    receiveRawUnix (toBE32 MAX_MESSAGE_SIZE ++ List.replicate MAX_MESSAGE_SIZE 0) =
      .ok (List.replicate MAX_MESSAGE_SIZE 0) ∧
    receiveRawUnix (toBE32 (MAX_MESSAGE_SIZE + 1) ++ []) =
      .error (.messageTooLarge (MAX_MESSAGE_SIZE + 1) MAX_MESSAGE_SIZE) := by
  refine ⟨?_, ?_, ?_, ?_⟩
  · exact message_size_boundary.1 _ (by simp)
  · have := message_size_boundary.2.1 (List.replicate (MAX_MESSAGE_SIZE + 1) 0) (by simp)
    simpa using this
  · have := message_size_boundary.2.2.1 (List.replicate MAX_MESSAGE_SIZE 0) []
      (by simp)
    simpa using this
  · exact message_size_boundary.2.2.2 (MAX_MESSAGE_SIZE + 1) []
      (by norm_num [MAX_MESSAGE_SIZE]) (by norm_num [MAX_MESSAGE_SIZE])

/-- C4 counterexample.  A gRPC agent response with version 99 — different from
the protocol version 2 — is converted successfully (`Ok`) with the mismatched
version copied into the result: the gRPC path performs no version check. -/
theorem grpc_version_unchecked :
    (convertGrpcResponse (fun _ => "")
        ⟨99, none, [], [], [], none, false, none, none, none⟩).isOk = true ∧
    ((convertGrpcResponse (fun _ => "")
        ⟨99, none, [], [], [], none, false, none, none, none⟩).toOption.map
      AgentResponse.version) = some 99 ∧
    (99 : Nat) ≠ PROTOCOL_VERSION :=
  ⟨rfl, rfl, by decide⟩

/-- C4 amended.  On the Unix-socket path a response whose version differs from
`PROTOCOL_VERSION` is rejected with `VersionMismatch{expected, actual}` and a
matching version is accepted; the gRPC conversion, in contrast, always
succeeds and never checks the version. -/
theorem response_version_check (r : AgentResponse) :
    (r.version ≠ PROTOCOL_VERSION →
      verifyUdsResponseVersion r = .error (.versionMismatch PROTOCOL_VERSION r.version)) ∧
    (r.version = PROTOCOL_VERSION → verifyUdsResponseVersion r = .ok r) ∧
    (∀ (utf8Lossy : List Nat → String) (g : GrpcAgentResponse),
      (convertGrpcResponse utf8Lossy g).isOk = true) := by
  refine ⟨?_, ?_, fun _ _ => rfl⟩
  · intro h
    simp [verifyUdsResponseVersion, h]
  · intro h
    simp [verifyUdsResponseVersion, h]

/-- Witness for C4's amended theorem at concrete versions 99 and 2. -/
theorem response_version_check_witness :
    verifyUdsResponseVersion
        ⟨99, .allow, [], [], [], AuditMetadata.defaultVal, false, none, none, none⟩ =
      .error (.versionMismatch PROTOCOL_VERSION 99) ∧
    verifyUdsResponseVersion
        ⟨2, .allow, [], [], [], AuditMetadata.defaultVal, false, none, none, none⟩ =
      .ok ⟨2, .allow, [], [], [], AuditMetadata.defaultVal, false, none, none, none⟩ :=
  ⟨(response_version_check _).1 (by decide),
    (response_version_check _).2.1 (by decide)⟩

/-- C3 counterexample.  An enabled PII check configured fail-open whose agent
call times out yields `Error "Agent timeout"` — not the `Clean` result the
claim requires of the `Open` failure mode: `check_pii` never consults the
configured failure mode. -/
theorem pii_check_ignores_failure_mode :
    checkPii ⟨true, "pii-agent", [], 100, .open⟩ .timedOut = .error "Agent timeout" ∧
    checkPii ⟨true, "pii-agent", [], 100, .open⟩ .timedOut ≠ .clean :=
  ⟨rfl, fun h => PiiCheckResult.noConfusion h⟩

/-- C3 amended.  The prompt-injection check honors the configured failure
mode on agent errors and timeouts (`Open` → `Clean`; `Closed` → a synthesized
block, 503 "Guardrail check unavailable" for errors and 504 "Guardrail check
timed out" for timeouts), while the PII check returns an `Error` result
carrying the failure message ("Agent timeout" for timeouts) regardless of the
configured failure mode. -/
theorem guardrail_failure_mode_handling :
    (∀ cfg : PromptInjectionConfig, cfg.enabled = true →
      (cfg.failureMode = .open →
        (∀ e, checkPromptInjection cfg (.failed e) = .clean) ∧
          checkPromptInjection cfg .timedOut = .clean) ∧
      (cfg.failureMode = .closed →
        (∀ e, checkPromptInjection cfg (.failed e) =
            .blocked 503 "Guardrail check unavailable" []) ∧
          checkPromptInjection cfg .timedOut =
            .blocked 504 "Guardrail check timed out" [])) ∧
    (∀ cfg : PiiDetectionConfig, cfg.enabled = true →
      (∀ e, checkPii cfg (.failed e) = .error e) ∧
        checkPii cfg .timedOut = .error "Agent timeout") := by
  constructor
  · intro cfg hen
    constructor
    · intro hfm
      exact ⟨fun e => by simp [checkPromptInjection, hen, hfm],
        by simp [checkPromptInjection, hen, hfm]⟩
    · intro hfm
      exact ⟨fun e => by simp [checkPromptInjection, hen, hfm],
        by simp [checkPromptInjection, hen, hfm]⟩
  · intro cfg hen
    exact ⟨fun e => by simp [checkPii, hen], by simp [checkPii, hen]⟩

/-- Witness for C3's amended theorem at concrete configurations. -/
theorem guardrail_failure_mode_handling_witness :
    checkPromptInjection ⟨true, "pi", .block, 403, none, 100, .open⟩ .timedOut = .clean ∧
    checkPromptInjection ⟨true, "pi", .block, 403, none, 100, .closed⟩ .timedOut =
      .blocked 504 "Guardrail check timed out" [] ∧
    checkPromptInjection ⟨true, "pi", .block, 403, none, 100, .closed⟩ (.failed "boom") =
      .blocked 503 "Guardrail check unavailable" [] ∧
    checkPii ⟨true, "pii", [], 100, .closed⟩ (.failed "boom") = .error "boom" :=
  ⟨((guardrail_failure_mode_handling.1 _ rfl).1 rfl).2,
    ((guardrail_failure_mode_handling.1 _ rfl).2 rfl).2,
    ((guardrail_failure_mode_handling.1 _ rfl).2 rfl).1 "boom",
    (guardrail_failure_mode_handling.2 _ rfl).1 "boom"⟩

set_option maxRecDepth 8192 in
/-- Decoding inverts the alphabet table on every six-bit value. -/
theorem b64Index_b64Char_fin : ∀ n : Fin 64, b64Index (b64Char n.val) = some n.val := by
  decide

/-- Nat-level version of the alphabet inversion. -/
theorem b64Index_b64Char {n : Nat} (h : n < 64) : b64Index (b64Char n) = some n :=
  b64Index_b64Char_fin ⟨n, h⟩

set_option maxRecDepth 8192 in
/-- No alphabet character is the padding character. -/
theorem b64Char_ne_pad_fin : ∀ n : Fin 64, ¬b64Char n.val = '=' := by
  decide

/-- Nat-level version of the padding disequality. -/
theorem b64Char_ne_pad {n : Nat} (h : n < 64) : ¬b64Char n = '=' :=
  b64Char_ne_pad_fin ⟨n, h⟩

/-- Base64 decoding inverts encoding on byte sequences. -/
theorem b64_decode_encode : ∀ bytes : List Nat, (∀ x ∈ bytes, x < 256) →
    b64DecodeChars (b64EncodeChars bytes) = some bytes
  | [], _ => rfl
  | [a], h => by
    have ha : a < 256 := h a (by simp)
    have h1 : a / 4 < 64 := by omega
    have h2 : a % 4 * 16 < 64 := by omega
    have h3 : a % 4 * 16 % 16 = 0 := by omega
    have h4 : a / 4 * 4 + a % 4 * 16 / 16 = a := by omega
    simp [b64EncodeChars, b64DecodeChars, b64Index_b64Char h1, b64Index_b64Char h2, h3, h4]
    omega
  | [a, b], h => by
    have ha : a < 256 := h a (by simp)
    have hb : b < 256 := h b (by simp)
    have h1 : a / 4 < 64 := by omega
    have h2 : a % 4 * 16 + b / 16 < 64 := by omega
    have h3 : b % 16 * 4 < 64 := by omega
    have h4 : b % 16 * 4 % 4 = 0 := by omega
    have h5 : a / 4 * 4 + (a % 4 * 16 + b / 16) / 16 = a := by omega
    have h6 : (a % 4 * 16 + b / 16) % 16 * 16 + b % 16 * 4 / 4 = b := by omega
    simp [b64EncodeChars, b64DecodeChars, b64Index_b64Char h1, b64Index_b64Char h2,
      b64Index_b64Char h3, b64Char_ne_pad h3, h4, h5, h6]
    omega
  | a :: b :: c :: d :: bytes, h => by
    have ha : a < 256 := h a (by simp)
    have hb : b < 256 := h b (by simp)
    have hc : c < 256 := h c (by simp)
    have ih := b64_decode_encode (d :: bytes) (fun x hx => h x (by simp [hx]))
    have h1 : a / 4 < 64 := by omega
    have h2 : a % 4 * 16 + b / 16 < 64 := by omega
    have h3 : b % 16 * 4 + c / 64 < 64 := by omega
    have h4 : c % 64 < 64 := by omega
    have h5 : a / 4 * 4 + (a % 4 * 16 + b / 16) / 16 = a := by omega
    have h6 : (a % 4 * 16 + b / 16) % 16 * 16 + (b % 16 * 4 + c / 64) / 4 = b := by omega
    have h7 : (b % 16 * 4 + c / 64) % 4 * 64 + c % 64 = c := by omega
    simp [b64EncodeChars, b64DecodeChars, b64Index_b64Char h1, b64Index_b64Char h2,
      b64Index_b64Char h3, b64Index_b64Char h4, b64Char_ne_pad h3, b64Char_ne_pad h4,
      ih, h5, h6, h7]
  | [a, b, c], h => by
    have ha : a < 256 := h a (by simp)
    have hb : b < 256 := h b (by simp)
    have hc : c < 256 := h c (by simp)
    have h1 : a / 4 < 64 := by omega
    have h2 : a % 4 * 16 + b / 16 < 64 := by omega
    have h3 : b % 16 * 4 + c / 64 < 64 := by omega
    have h4 : c % 64 < 64 := by omega
    have h5 : a / 4 * 4 + (a % 4 * 16 + b / 16) / 16 = a := by omega
    have h6 : (a % 4 * 16 + b / 16) % 16 * 16 + (b % 16 * 4 + c / 64) / 4 = b := by omega
    have h7 : (b % 16 * 4 + c / 64) % 4 * 64 + c % 64 = c := by omega
    simp [b64EncodeChars, b64DecodeChars, b64Index_b64Char h1, b64Index_b64Char h2,
      b64Index_b64Char h3, b64Index_b64Char h4, b64Char_ne_pad h3, b64Char_ne_pad h4,
      h5, h6, h7]

/-- String-level base64 round trip. -/
theorem b64Decode_b64Encode (bytes : List Nat) (h : ∀ x ∈ bytes, x < 256) :
    b64Decode (b64Encode bytes) = some bytes := by
  simpa [b64Decode, b64Encode, String.toList] using b64_decode_encode bytes h

/-- C7.  For every binary body-chunk event (request or response) whose data is
a byte sequence, converting to the base64 JSON representation and back yields
the identical event — same bytes, correlation id, `is_last`, total size,
chunk index and cumulative counters — and when the base64 string of a JSON
event fails to decode, the binary conversion falls back to the string's raw
UTF-8 bytes with the remaining fields copied. -/
theorem body_chunk_base64_roundtrip :
    (∀ e : BinaryRequestBodyChunkEvent, (∀ x ∈ e.data, x < 256) →
      jsonReqToBin (binReqToJson e) = e) ∧
    (∀ e : BinaryResponseBodyChunkEvent, (∀ x ∈ e.data, x < 256) →
      jsonRespToBin (binRespToJson e) = e) ∧
    (∀ e : RequestBodyChunkEvent, b64Decode e.data = none →
      jsonReqToBin e =
        ⟨e.correlationId, strUtf8 e.data, e.isLast, e.totalSize, e.chunkIndex,
          e.bytesReceived⟩) ∧
    (∀ e : ResponseBodyChunkEvent, b64Decode e.data = none →
      jsonRespToBin e =
        ⟨e.correlationId, strUtf8 e.data, e.isLast, e.totalSize, e.chunkIndex,
          e.bytesSent⟩) := by
  refine ⟨?_, ?_, ?_, ?_⟩
  · intro e h
    cases e
    simp_all [jsonReqToBin, binReqToJson, b64Decode_b64Encode]
  · intro e h
    cases e
    simp_all [jsonRespToBin, binRespToJson, b64Decode_b64Encode]
  · intro e h
    cases e
    simp_all [jsonReqToBin]
  · intro e h
    cases e
    simp_all [jsonRespToBin]

/-- Witness for C7 at concrete events, including a non-decodable data string. -/
theorem body_chunk_base64_roundtrip_witness :
    jsonReqToBin (binReqToJson ⟨"cid-1", [0, 77, 255], true, some 3, 2, 3⟩) =
      ⟨"cid-1", [0, 77, 255], true, some 3, 2, 3⟩ ∧
    jsonRespToBin (binRespToJson ⟨"cid-2", [1, 2], false, none, 0, 2⟩) =
      ⟨"cid-2", [1, 2], false, none, 0, 2⟩ ∧
    jsonReqToBin ⟨"cid-3", "!!!", true, none, 0, 3⟩ =
      ⟨"cid-3", strUtf8 "!!!", true, none, 0, 3⟩ ∧
    jsonRespToBin ⟨"cid-4", "!!!", true, none, 0, 3⟩ =
      ⟨"cid-4", strUtf8 "!!!", true, none, 0, 3⟩ :=
  ⟨body_chunk_base64_roundtrip.1 _ (by decide),
    body_chunk_base64_roundtrip.2.1 _ (by decide),
    body_chunk_base64_roundtrip.2.2.1 _ (by decide),
    body_chunk_base64_roundtrip.2.2.2 _ (by decide)⟩

/-- Success outcomes of the fan-out carry Allow decisions whenever every
successful agent call in the input does. -/
theorem runParallelCall_ok_allow (calls : List ParallelAgentCall)
    (h : ∀ p ∈ calls, ∀ r, p.call = CallResult.success r → p.permitOk = true →
      p.breakerClosed = true → (AgentDecision.ofResponse r).isAllow = true) :
    oksAllow (calls.map runParallelCall) := by
  intro o ho id r heq
  obtain ⟨p, hp, rfl⟩ := List.mem_map.mp ho
  cases h1 : p.permitOk with
  | false => simp [runParallelCall, h1] at heq
  | true =>
    cases h2 : p.breakerClosed with
    | false => simp [runParallelCall, h1, h2] at heq
    | true =>
      cases hc : p.call with
      | success r' =>
        have heq2 : p.agentId = id ∧ r' = r := by
          simpa [runParallelCall, h1, h2, hc] using heq
        exact heq2.2 ▸ h p hp r' hc h1 h2
      | failed e => simp [runParallelCall, h1, h2, hc] at heq
      | timedOut => simp [runParallelCall, h1, h2, hc] at heq

/-- Once a fail-closed block is remembered, a tail of Allow successes and
further failures leaves it as the result. -/
theorem foldResults_with_blocking (xs : List Outcome) :
    ∀ (comb d : AgentDecision), oksAllow xs → foldResults comb (some d) xs = d := by
  induction xs with
  | nil => intro comb d _; rfl
  | cons o rest ih =>
    intro comb d hok
    have hrest : oksAllow rest := fun o' ho' => hok o' (by simp [ho'])
    cases o with
    | ok pr =>
      obtain ⟨id, r⟩ := pr
      have hallow := hok (.ok (id, r)) (by simp) id r rfl
      simp [foldResults, hallow, ih _ _ hrest]
    | error pr =>
      obtain ⟨id, m, reason⟩ := pr
      simp [foldResults, ih _ _ hrest]

/-- The first success with a non-Allow decision is returned untouched,
whatever outcomes sit before or after it. -/
theorem foldResults_block_short_circuit (xs : List Outcome) (id : String)
    (r : AgentResponse) (ys : List Outcome) :
    ∀ (comb : AgentDecision) (be : Option AgentDecision), oksAllow xs →
      (AgentDecision.ofResponse r).isAllow = false →
      foldResults comb be (xs ++ .ok (id, r) :: ys) = AgentDecision.ofResponse r := by
  induction xs with
  | nil =>
    intro comb be _ hblock
    simp [foldResults, hblock]
  | cons o rest ih =>
    intro comb be hok hblock
    have hrest : oksAllow rest := fun o' ho' => hok o' (by simp [ho'])
    cases o with
    | ok pr =>
      obtain ⟨id', r'⟩ := pr
      have hallow := hok (.ok (id', r')) (by simp) id' r' rfl
      simp only [List.cons_append, foldResults, hallow, Bool.not_true, Bool.false_eq_true,
        if_false]
      exact ih _ _ hrest hblock
    | error pr =>
      obtain ⟨id', m, reason⟩ := pr
      cases hcond : (m == FailureMode.closed && be.isNone) with
      | false =>
        simp only [List.cons_append, foldResults, hcond, Bool.false_eq_true, if_false]
        exact ih _ _ hrest hblock
      | true =>
        simp only [List.cons_append, foldResults, hcond, if_true]
        exact ih _ _ hrest hblock

/-- When every success is an Allow, the first fail-closed failure's
synthesized block is the result of the fold. -/
theorem foldResults_first_closed (xs : List Outcome) :
    ∀ comb : AgentDecision, oksAllow xs →
      ∀ reason, xs.findSome? failClosedReason = some reason →
      foldResults comb none xs = synthFailBlock reason := by
  induction xs with
  | nil => intro comb _ reason hfind; simp [List.findSome?] at hfind
  | cons o rest ih =>
    intro comb hok reason hfind
    have hrest : oksAllow rest := fun o' ho' => hok o' (by simp [ho'])
    cases o with
    | ok pr =>
      obtain ⟨id, r⟩ := pr
      have hallow := hok (.ok (id, r)) (by simp) id r rfl
      have hfind' : rest.findSome? failClosedReason = some reason := by
        simpa [List.findSome?_cons, failClosedReason] using hfind
      simp only [foldResults, hallow, Bool.not_true, Bool.false_eq_true, if_false]
      exact ih _ hrest reason hfind'
    | error pr =>
      obtain ⟨id, m, reason'⟩ := pr
      cases m
      · have hfind' : rest.findSome? failClosedReason = some reason := by
          simpa [List.findSome?_cons, failClosedReason] using hfind
        simp only [foldResults]
        rw [if_neg (by decide)]
        exact ih _ hrest reason hfind'
      · have heq : reason' = reason := by
          simpa [List.findSome?_cons, failClosedReason] using hfind
        subst heq
        simp only [foldResults]
        rw [if_pos (by decide)]
        exact foldResults_with_blocking rest _ _ hrest

/-- Merging two Allow decisions yields an Allow decision. -/
theorem merge_allow {a b : AgentDecision} (ha : a.isAllow = true)
    (hb : b.isAllow = true) : (a.merge b).isAllow = true := by
  have ha' : a.decision = .allow := by
    cases hd : a.decision <;> simp [AgentDecision.isAllow, hd] at ha ⊢
  have hb' : b.decision = .allow := by
    cases hd : b.decision <;> simp [AgentDecision.isAllow, hd] at hb ⊢
  simp [AgentDecision.merge, AgentDecision.isAllow, ha', hb', decisionStrength]

/-- With only Allow successes and no fail-closed failure, the fold keeps an
Allow decision. -/
theorem foldResults_no_closed (xs : List Outcome) :
    ∀ comb : AgentDecision, oksAllow xs →
      xs.findSome? failClosedReason = none → comb.isAllow = true →
      (foldResults comb none xs).isAllow = true := by
  induction xs with
  | nil => intro comb _ _ hcomb; simpa [foldResults] using hcomb
  | cons o rest ih =>
    intro comb hok hfind hcomb
    have hrest : oksAllow rest := fun o' ho' => hok o' (by simp [ho'])
    cases o with
    | ok pr =>
      obtain ⟨id, r⟩ := pr
      have hallow := hok (.ok (id, r)) (by simp) id r rfl
      have hfind' : rest.findSome? failClosedReason = none := by
        simpa [List.findSome?_cons, failClosedReason] using hfind
      simp only [foldResults, hallow, Bool.not_true, Bool.false_eq_true, if_false]
      exact ih _ hrest hfind' (merge_allow hcomb hallow)
    | error pr =>
      obtain ⟨id, m, reason⟩ := pr
      cases m
      · have hfind' : rest.findSome? failClosedReason = none := by
          simpa [List.findSome?_cons, failClosedReason] using hfind
        simp only [foldResults]
        rw [if_neg (by decide)]
        exact ih _ hrest hfind' hcomb
      · simp [List.findSome?_cons, failClosedReason] at hfind

/-- C1.  In the parallel fan-out, when one agent call succeeds with a
non-Allow decision (and every earlier success was Allow), the manager returns
exactly that agent's decision — whatever the other outcomes are, and without
merging anything into it. -/
theorem parallel_block_short_circuit (pre : List ParallelAgentCall)
    (c : ParallelAgentCall) (post : List ParallelAgentCall) (r : AgentResponse)
    (hperm : c.permitOk = true) (hbrk : c.breakerClosed = true)
    (hcall : c.call = CallResult.success r)
    (hblock : (AgentDecision.ofResponse r).isAllow = false)
    (hpre : ∀ p ∈ pre, ∀ r', p.call = CallResult.success r' → p.permitOk = true →
      p.breakerClosed = true → (AgentDecision.ofResponse r').isAllow = true) :
    processEventParallel (pre ++ c :: post) = AgentDecision.ofResponse r := by
  have hrun : runParallelCall c = .ok (c.agentId, r) := by
    simp [runParallelCall, hperm, hbrk, hcall]
  have hne : (pre ++ c :: post).isEmpty = false := by simp
  simp only [processEventParallel, hne, Bool.false_eq_true, if_false, List.map_append,
    List.map_cons, hrun]
  exact foldResults_block_short_circuit (pre.map runParallelCall) c.agentId r
    (post.map runParallelCall) _ _ (runParallelCall_ok_allow pre hpre) hblock

/-- Witness for C1: a failing fail-open agent before, a blocking WAF agent in
the middle, an allowing agent after — the result is the WAF's 403 block. -/
theorem parallel_block_short_circuit_witness :
    processEventParallel
        ([⟨"probe", .open, true, true, .failed "boom"⟩] ++
          (⟨"waf", .closed, true, true,
            .success ⟨2, .block 403 (some "blocked") none, [], [], [],
              AuditMetadata.defaultVal, false, none, none, none⟩⟩ : ParallelAgentCall) ::
          [⟨"ratelimit", .open, true, true,
            .success ⟨2, .allow, [], [], [], AuditMetadata.defaultVal, false, none, none,
              none⟩⟩]) =
      AgentDecision.ofResponse
        ⟨2, .block 403 (some "blocked") none, [], [], [], AuditMetadata.defaultVal, false,
          none, none, none⟩ :=
  parallel_block_short_circuit _ _ _ _ rfl rfl rfl rfl
    (by
      intro p hp r' hcall _ _
      rcases List.mem_singleton.mp hp with rfl
      exact CallResult.noConfusion hcall)

/-- A fail-open failing entry inserted anywhere is passed over by the
`process_event` loop. -/
theorem processEventLoop_skip_insert (xs : List SequentialAgentCall)
    (c : SequentialAgentCall) (ys : List SequentialAgentCall) (hc : seqSkipped c) :
    ∀ combined : AgentDecision,
      processEventLoop combined (xs ++ c :: ys) = processEventLoop combined (xs ++ ys) := by
  obtain ⟨hperm, hmode, hfail⟩ := hc
  induction xs with
  | nil =>
    intro combined
    cases hbrk : c.breakerClosed with
    | false => simp [processEventLoop, hperm, hbrk, hmode]
    | true =>
      rcases hfail with hb | ⟨e, he⟩ | ht
      · rw [hbrk] at hb; exact Bool.noConfusion hb
      · simp [processEventLoop, hperm, hbrk, he, hmode]
      · simp [processEventLoop, hperm, hbrk, ht, hmode]
  | cons p xs ih =>
    intro combined
    cases hperm' : p.permitOk with
    | false => simp [processEventLoop, hperm']
    | true =>
      cases hbrk' : p.breakerClosed with
      | false =>
        cases hmode' : p.failureMode
        · simp [processEventLoop, hperm', hbrk', hmode', ih]
        · simp [processEventLoop, hperm', hbrk', hmode']
      | true =>
        cases hcall' : p.call with
        | success r =>
          cases hallow : (combined.merge (AgentDecision.ofResponse r)).isAllow with
          | false => simp [processEventLoop, hperm', hbrk', hcall', hallow]
          | true => simp [processEventLoop, hperm', hbrk', hcall', hallow, ih]
        | failed e =>
          cases hmode' : p.failureMode
          · simp [processEventLoop, hperm', hbrk', hcall', hmode', ih]
          · simp [processEventLoop, hperm', hbrk', hcall', hmode']
        | timedOut =>
          cases hmode' : p.failureMode
          · simp [processEventLoop, hperm', hbrk', hcall', hmode', ih]
          · simp [processEventLoop, hperm', hbrk', hcall', hmode']

/-- A fail-open failing entry inserted anywhere is passed over by the
`process_event_with_failure_modes` loop. -/
theorem processEventWithFailureModesLoop_skip_insert (xs : List SequentialAgentCall)
    (c : SequentialAgentCall) (ys : List SequentialAgentCall) (hc : seqSkipped c) :
    ∀ combined : AgentDecision,
      processEventWithFailureModesLoop combined (xs ++ c :: ys) =
        processEventWithFailureModesLoop combined (xs ++ ys) := by
  obtain ⟨hperm, hmode, hfail⟩ := hc
  induction xs with
  | nil =>
    intro combined
    cases hbrk : c.breakerClosed with
    | false => simp [processEventWithFailureModesLoop, hperm, hbrk, hmode]
    | true =>
      rcases hfail with hb | ⟨e, he⟩ | ht
      · rw [hbrk] at hb; exact Bool.noConfusion hb
      · simp [processEventWithFailureModesLoop, hperm, hbrk, he, hmode]
      · simp [processEventWithFailureModesLoop, hperm, hbrk, ht, hmode]
  | cons p xs ih =>
    intro combined
    cases hperm' : p.permitOk with
    | false => simp [processEventWithFailureModesLoop, hperm']
    | true =>
      cases hbrk' : p.breakerClosed with
      | false =>
        cases hmode' : p.failureMode
        · simp [processEventWithFailureModesLoop, hperm', hbrk', hmode', ih]
        · simp [processEventWithFailureModesLoop, hperm', hbrk', hmode']
      | true =>
        cases hcall' : p.call with
        | success r =>
          cases hallow : (combined.merge (AgentDecision.ofResponse r)).isAllow with
          | false => simp [processEventWithFailureModesLoop, hperm', hbrk', hcall', hallow]
          | true => simp [processEventWithFailureModesLoop, hperm', hbrk', hcall', hallow, ih]
        | failed e =>
          cases hmode' : p.failureMode
          · simp [processEventWithFailureModesLoop, hperm', hbrk', hcall', hmode', ih]
          · simp [processEventWithFailureModesLoop, hperm', hbrk', hcall', hmode']
        | timedOut =>
          cases hmode' : p.failureMode
          · simp [processEventWithFailureModesLoop, hperm', hbrk', hcall', hmode', ih]
          · simp [processEventWithFailureModesLoop, hperm', hbrk', hcall', hmode']

/-- A prefix of continuing entries is consumed by the `process_event` loop,
keeping the accumulated decision an Allow. -/
theorem processEventLoop_continues_prefix (pre : List SequentialAgentCall) :
    ∀ (combined : AgentDecision) (rest : List SequentialAgentCall),
      (∀ p ∈ pre, seqContinues p) → combined.isAllow = true →
      ∃ combined2, combined2.isAllow = true ∧
        processEventLoop combined (pre ++ rest) = processEventLoop combined2 rest := by
  induction pre with
  | nil => intro combined rest _ hcomb; exact ⟨combined, hcomb, rfl⟩
  | cons p pre ih =>
    intro combined rest hpre hcomb
    obtain ⟨hperm, hbrkOpen, hfailOpen, htimeOpen, hsucc⟩ := hpre p (by simp)
    have hpre' : ∀ q ∈ pre, seqContinues q := fun q hq => hpre q (by simp [hq])
    cases hbrk : p.breakerClosed with
    | false =>
      have hmode := hbrkOpen hbrk
      simpa [processEventLoop, hperm, hbrk, hmode] using ih combined rest hpre' hcomb
    | true =>
      cases hcall : p.call with
      | success r =>
        have hallow := merge_allow hcomb (hsucc r hcall)
        simpa [processEventLoop, hperm, hbrk, hcall, hallow] using
          ih _ rest hpre' hallow
      | failed e =>
        have hmode := hfailOpen e hcall
        simpa [processEventLoop, hperm, hbrk, hcall, hmode] using
          ih combined rest hpre' hcomb
      | timedOut =>
        have hmode := htimeOpen hcall
        simpa [processEventLoop, hperm, hbrk, hcall, hmode] using
          ih combined rest hpre' hcomb

/-- A prefix of continuing entries is consumed by the
`process_event_with_failure_modes` loop, keeping the accumulated decision an
Allow. -/
theorem processEventWithFailureModesLoop_continues_prefix
    (pre : List SequentialAgentCall) :
    ∀ (combined : AgentDecision) (rest : List SequentialAgentCall),
      (∀ p ∈ pre, seqContinues p) → combined.isAllow = true →
      ∃ combined2, combined2.isAllow = true ∧
        processEventWithFailureModesLoop combined (pre ++ rest) =
          processEventWithFailureModesLoop combined2 rest := by
  induction pre with
  | nil => intro combined rest _ hcomb; exact ⟨combined, hcomb, rfl⟩
  | cons p pre ih =>
    intro combined rest hpre hcomb
    obtain ⟨hperm, hbrkOpen, hfailOpen, htimeOpen, hsucc⟩ := hpre p (by simp)
    have hpre' : ∀ q ∈ pre, seqContinues q := fun q hq => hpre q (by simp [hq])
    cases hbrk : p.breakerClosed with
    | false =>
      have hmode := hbrkOpen hbrk
      simpa [processEventWithFailureModesLoop, hperm, hbrk, hmode] using
        ih combined rest hpre' hcomb
    | true =>
      cases hcall : p.call with
      | success r =>
        have hallow := merge_allow hcomb (hsucc r hcall)
        simpa [processEventWithFailureModesLoop, hperm, hbrk, hcall, hallow] using
          ih _ rest hpre' hallow
      | failed e =>
        have hmode := hfailOpen e hcall
        simpa [processEventWithFailureModesLoop, hperm, hbrk, hcall, hmode] using
          ih combined rest hpre' hcomb
      | timedOut =>
        have hmode := htimeOpen hcall
        simpa [processEventWithFailureModesLoop, hperm, hbrk, hcall, hmode] using
          ih combined rest hpre' hcomb

/-- C2 counterexample.  Two divergences from the claim at concrete inputs: in
the parallel fan-out a generic agent error — not a timeout — whose error text
contains "Timeout" is synthesized as a 504 "Gateway timeout" block rather
than the claimed 503 (the status is chosen by a substring test on the reason
text); and in the cited sequential `process_event` a generic error under a
fail-closed mode returns no synthesized block at all — the error itself is
propagated. -/
theorem manager_failure_synthesis_counterexample :
    processEventParallel
        [⟨"agent1", .closed, true, true, .failed "Timeout reported by peer"⟩] =
      AgentDecision.block 504 "Gateway timeout" ∧
    AgentDecision.block 504 "Gateway timeout" ≠
      AgentDecision.block 503 "Service unavailable" ∧
    (⟨"agent1", .closed, true, true, .failed "Timeout reported by peer"⟩ :
        ParallelAgentCall).call ≠ CallResult.timedOut ∧
    processEvent [⟨"agent1", .closed, true, true, .failed "connection refused"⟩] =
      .error (.agentCallError "connection refused") ∧
    (processEvent [⟨"agent1", .closed, true, true,
        .failed "connection refused"⟩]).isOk = false :=
  ⟨by decide, by decide, fun h => CallResult.noConfusion h, rfl, rfl⟩

/-- C2 amended.  Manager failure handling under fail-closed, per dispatch
path.  Parallel fan-out: when every successful call returns Allow, the result
is the synthesized block of the first fail-closed failure — 504 "Gateway
timeout" when the failure reason contains "Timeout" (in particular for call
timeouts), 503 "Service unavailable" otherwise (breaker-open, permit failure,
and generic errors without "Timeout" in their text) — and an Allow decision
when no fail-closed failure occurred.  Sequential dispatch (after any prefix
of allowing or fail-open-failing agents): an open breaker under a fail-closed
mode yields a 503 "Service unavailable" block and a timeout a 504 "Gateway
timeout" block in both variants; a generic call error under fail-closed
yields a 503 "Agent unavailable" block in the filter-failure-mode variant but
propagates the error itself, with no synthesized block, in `process_event`
(which consults the agent's default failure mode).  In every variant a
fail-open failure is ignored and processing continues with the remaining
agents. -/
theorem manager_failure_mode_policy :
    (∀ calls : List ParallelAgentCall,
      (∀ p ∈ calls, ∀ r, p.call = CallResult.success r → p.permitOk = true →
        p.breakerClosed = true → (AgentDecision.ofResponse r).isAllow = true) →
      (∀ reason, (calls.map runParallelCall).findSome? failClosedReason = some reason →
        processEventParallel calls = synthFailBlock reason) ∧
      ((calls.map runParallelCall).findSome? failClosedReason = none →
        (processEventParallel calls).isAllow = true)) ∧
    (∀ (pre : List SequentialAgentCall) (c : SequentialAgentCall)
        (rest : List SequentialAgentCall),
      (∀ p ∈ pre, seqContinues p) → c.permitOk = true → c.failureMode = .closed →
      (c.breakerClosed = false →
        processEvent (pre ++ c :: rest) =
          .ok (AgentDecision.block 503 "Service unavailable") ∧
        processEventWithFailureModes (pre ++ c :: rest) =
          .ok (AgentDecision.block 503 "Service unavailable")) ∧
      (c.breakerClosed = true →
        (c.call = CallResult.timedOut →
          processEvent (pre ++ c :: rest) =
            .ok (AgentDecision.block 504 "Gateway timeout") ∧
          processEventWithFailureModes (pre ++ c :: rest) =
            .ok (AgentDecision.block 504 "Gateway timeout")) ∧
        (∀ e, c.call = CallResult.failed e →
          processEvent (pre ++ c :: rest) = .error (SeqError.agentCallError e) ∧
          processEventWithFailureModes (pre ++ c :: rest) =
            .ok (AgentDecision.block 503 "Agent unavailable")))) ∧
    (∀ (pre post : List SequentialAgentCall) (c : SequentialAgentCall), seqSkipped c →
      processEvent (pre ++ c :: post) = processEvent (pre ++ post) ∧
      processEventWithFailureModes (pre ++ c :: post) =
        processEventWithFailureModes (pre ++ post)) := by
  refine ⟨?_, ?_, ?_⟩
  · intro calls hAllow
    have hok := runParallelCall_ok_allow calls hAllow
    constructor
    · intro reason hfind
      cases hc : calls with
      | nil => subst hc; simp [List.findSome?] at hfind
      | cons a as =>
        subst hc
        simp only [processEventParallel, List.isEmpty_cons, Bool.false_eq_true, if_false]
        exact foldResults_first_closed _ _ hok reason hfind
    · intro hfind
      cases hc : calls with
      | nil => subst hc; simp [processEventParallel, AgentDecision.defaultAllow,
          AgentDecision.isAllow]
      | cons a as =>
        subst hc
        simp only [processEventParallel, List.isEmpty_cons, Bool.false_eq_true, if_false]
        exact foldResults_no_closed _ _ hok hfind rfl
  · intro pre c rest hpre hperm hmode
    obtain ⟨combE, -, hE⟩ :=
      processEventLoop_continues_prefix pre AgentDecision.defaultAllow (c :: rest) hpre rfl
    obtain ⟨combW, -, hW⟩ :=
      processEventWithFailureModesLoop_continues_prefix pre AgentDecision.defaultAllow
        (c :: rest) hpre rfl
    have hne : (pre ++ c :: rest).isEmpty = false := by simp
    have hE' : processEvent (pre ++ c :: rest) = processEventLoop combE (c :: rest) := by
      simp only [processEvent, hne, Bool.false_eq_true, if_false, hE]
    have hW' : processEventWithFailureModes (pre ++ c :: rest) =
        processEventWithFailureModesLoop combW (c :: rest) := by
      simp only [processEventWithFailureModes, hne, Bool.false_eq_true, if_false, hW]
    refine ⟨?_, ?_⟩
    · intro hbrk
      exact ⟨by rw [hE']; simp [processEventLoop, hperm, hbrk, hmode],
        by rw [hW']; simp [processEventWithFailureModesLoop, hperm, hbrk, hmode]⟩
    · intro hbrk
      refine ⟨?_, ?_⟩
      · intro hcall
        exact ⟨by rw [hE']; simp [processEventLoop, hperm, hbrk, hcall, hmode],
          by rw [hW']; simp [processEventWithFailureModesLoop, hperm, hbrk, hcall, hmode]⟩
      · intro e hcall
        exact ⟨by rw [hE']; simp [processEventLoop, hperm, hbrk, hcall, hmode],
          by rw [hW']; simp [processEventWithFailureModesLoop, hperm, hbrk, hcall, hmode]⟩
  · intro pre post c hc
    have hne : (pre ++ c :: post).isEmpty = false := by simp
    have hInsE := processEventLoop_skip_insert pre c post hc AgentDecision.defaultAllow
    have hInsW :=
      processEventWithFailureModesLoop_skip_insert pre c post hc AgentDecision.defaultAllow
    cases hpp : (pre ++ post).isEmpty with
    | true =>
      have hnilpre : pre = [] := by
        cases pre with
        | nil => rfl
        | cons a as => simp at hpp
      have hnilpost : post = [] := by
        cases post with
        | nil => rfl
        | cons a as => simp [hnilpre] at hpp
      subst hnilpre; subst hnilpost
      constructor
      · simp only [processEvent, List.nil_append, List.isEmpty_cons, Bool.false_eq_true,
          if_false, List.isEmpty_nil, if_true]
        simpa using hInsE
      · simp only [processEventWithFailureModes, List.nil_append, List.isEmpty_cons,
          Bool.false_eq_true, if_false, List.isEmpty_nil, if_true]
        simpa using hInsW
    | false =>
      constructor
      · simp only [processEvent, hne, hpp, Bool.false_eq_true, if_false]
        exact hInsE
      · simp only [processEventWithFailureModes, hne, hpp, Bool.false_eq_true, if_false]
        exact hInsW

/-- Witness for C2's amended theorem: concrete dispatches exercising the
parallel 504 synthesis, the sequential 504/503 synthesis after a fail-open
failing agent, the error propagation of `process_event`, and the fail-open
skip in both sequential variants. -/
theorem manager_failure_mode_policy_witness :
    processEventParallel
        [⟨"b", .closed, true, true, .timedOut⟩, ⟨"c", .open, true, true, .failed "x"⟩] =
      synthFailBlock "Timeout" ∧
    processEvent ([⟨"skip", .open, true, true, .failed "x"⟩] ++
        (⟨"waf", .closed, true, true, .timedOut⟩ : SequentialAgentCall) :: []) =
      .ok (AgentDecision.block 504 "Gateway timeout") ∧
    processEvent ([] ++
        (⟨"waf", .closed, true, true, .failed "connection refused"⟩ :
          SequentialAgentCall) :: []) =
      .error (.agentCallError "connection refused") ∧
    processEventWithFailureModes ([] ++
        (⟨"waf", .closed, true, true, .failed "connection refused"⟩ :
          SequentialAgentCall) :: []) =
      .ok (AgentDecision.block 503 "Agent unavailable") ∧
    processEventWithFailureModes ([] ++
        (⟨"brk", .closed, true, false, .timedOut⟩ : SequentialAgentCall) :: []) =
      .ok (AgentDecision.block 503 "Service unavailable") ∧
    processEvent ([] ++ (⟨"c", .open, true, true, .timedOut⟩ : SequentialAgentCall) :: []) =
      processEvent ([] ++ []) ∧
    processEventWithFailureModes ([] ++
        (⟨"c", .open, true, true, .timedOut⟩ : SequentialAgentCall) :: []) =
      processEventWithFailureModes ([] ++ []) :=
  ⟨(manager_failure_mode_policy.1 _
      (by
        intro p hp r hcall _ _
        rcases List.mem_cons.mp hp with rfl | hp2
        · exact CallResult.noConfusion hcall
        · rcases List.mem_singleton.mp hp2 with rfl
          exact CallResult.noConfusion hcall)).1 "Timeout" (by decide),
    (((manager_failure_mode_policy.2.1 [⟨"skip", .open, true, true, .failed "x"⟩]
        ⟨"waf", .closed, true, true, .timedOut⟩ []
        (by
          intro p hp
          rcases List.mem_singleton.mp hp with rfl
          exact ⟨rfl, fun _ => rfl, fun _ _ => rfl, fun _ => rfl,
            fun r h => CallResult.noConfusion h⟩)
        rfl rfl).2 rfl).1 rfl).1,
    (((manager_failure_mode_policy.2.1 []
        ⟨"waf", .closed, true, true, .failed "connection refused"⟩ []
        (by intro p hp; simp at hp) rfl rfl).2 rfl).2 "connection refused" rfl).1,
    (((manager_failure_mode_policy.2.1 []
        ⟨"waf", .closed, true, true, .failed "connection refused"⟩ []
        (by intro p hp; simp at hp) rfl rfl).2 rfl).2 "connection refused" rfl).2,
    ((manager_failure_mode_policy.2.1 [] ⟨"brk", .closed, true, false, .timedOut⟩ []
        (by intro p hp; simp at hp) rfl rfl).1 rfl).2,
    (manager_failure_mode_policy.2.2 [] [] ⟨"c", .open, true, true, .timedOut⟩
        ⟨rfl, rfl, Or.inr (Or.inr rfl)⟩).1,
    (manager_failure_mode_policy.2.2 [] [] ⟨"c", .open, true, true, .timedOut⟩
        ⟨rfl, rfl, Or.inr (Or.inr rfl)⟩).2⟩

end Zentinel
